import Mathlib

/-!
# Interdomain registry federation and DNS context helpers

A verification development for the federation layer of the network-service-mesh SDK:
the domain-qualified name codec, the local / proxy / floating registry chain exercised by
`pkg/registry/interdomain/interdomain_nse_test.go`, the `dnsresolve` context helpers,
the `expire` options, and the `dnscontext` client.

Strings are lists of characters, durations and timestamps are integers / naturals.
-/

/-- Strings of the program, as lists of characters. -/
abbrev Str := List Char

deriving instance DecidableEq for Except

namespace Interdomain

/-- The error taxonomy of the federation layer (spec section 7). -/
inductive RegistryError
  | InvalidName
  | NotFound
  | DeadlineExceeded
  | Unavailable
  | FederationLoop
deriving DecidableEq, Repr

/-- The separator of the name wire format `base[@domain]*`. -/
def separator : Char := '@'

/-- A well-formed segment of a qualified name: not empty and free of the separator. -/
def wellFormed (s : Str) : Prop := s ≠ [] ∧ separator ∉ s

instance (s : Str) : Decidable (wellFormed s) := by
  unfold wellFormed; exact inferInstance

/-- Modelled from the spec: the Name Codec operation `compose(base, [domains]) -> raw`
(section 4.1, wire format `base[@domain]*` of section 6); the codec is not among the
source files. -/
def compose (base : Str) (domains : List Str) : Str :=
  [separator].intercalate (base :: domains)

/-- Modelled from the spec: the Name Codec operation `parse(raw) -> (base, [domains], err)`
(section 4.1): purely syntactic splitting on the separator, failing with `InvalidName` on an
empty base (4.1) or an empty domain segment (section 7). -/
def parse (raw : Str) : Except RegistryError (Str × List Str) :=
  match raw.splitOn separator with
  | [] => .error .InvalidName
  | base :: domains =>
    if base.isEmpty || domains.any List.isEmpty then .error .InvalidName
    else .ok (base, domains)

/-- Modelled from the spec: `pushSuffix(name, domain) -> name` of the Name Codec (4.1). -/
def pushSuffix (name domain : Str) : Str :=
  name ++ separator :: domain

/-- Modelled from the spec: `popSuffix(name) -> (name-without-last-domain, lastDomain)` of the
Name Codec (4.1); a name without suffix has no last domain. -/
def popSuffix (name : Str) : Except RegistryError (Str × Option Str) :=
  match parse name with
  | .error e => .error e
  | .ok (base, domains) => .ok (compose base domains.dropLast, domains.getLast?)

/-- Modelled from the spec: `hasForeignSuffix(name, localDomain) -> bool` of the Name Codec
(4.1): false when the name has no suffix or its outermost suffix is the local domain. -/
def hasForeignSuffix (name localDomain : Str) : Bool :=
  match popSuffix name with
  | .ok (_, some d) => d != localDomain
  | _ => false

/-- Modelled from the spec: the name a result entry keeps before its suffix is replaced
(4.4 step 4): everything up to the first separator. -/
def baseOf (name : Str) : Str :=
  name.takeWhile (fun c => c != separator)

/-- Modelled from the spec: a RegistryEntry (section 3): name, advertised endpoint address,
expiration timestamp and an opaque label set. In the source tests this is
`registry.NetworkServiceEndpoint` with `Name`, `Url` and `ExpirationTime`. -/
structure RegistryEntry where
  name : Str
  url : Str
  expiration : Nat
  labels : List (Str × Str)
deriving DecidableEq, Repr

/-- Modelled from the spec: the Domain Resolver backed by a static table (4.2), the fake
resolver of the tests (`sandbox.FakeDNSResolver`, `Register(domain, url)`); a label without
record fails with `NotFound`. -/
def resolve (table : List (Str × Str)) (domain : Str) : Except RegistryError Str :=
  match table.lookup domain with
  | some address => .ok address
  | none => .error .NotFound

/-- Modelled from the spec: store/refresh of an entry store (section 3 lifecycle): a
re-Register under the same Name replaces the stored entry. -/
def storeRegister (store : List RegistryEntry) (e : RegistryEntry) : List RegistryEntry :=
  e :: store.filter (fun x => x.name != e.name)

/-- Modelled from the spec: lookup in an entry store by exact Name, filtering on expiration
at read time (4.6): an entry whose expiration is at or before the current time is absent. -/
def storeFind (store : List RegistryEntry) (name : Str) (now : Nat) : List RegistryEntry :=
  store.filter (fun x => x.name == name && decide (now < x.expiration))

/-- Modelled from the spec: one domain's registry (4.3, 4.4): the Local Registry Filter with
its configured local domain identifier and floating-domain marker (section 6), the local
entry store it owns, and the resolver its Proxy Registry uses. -/
structure LocalRegistry where
  localDomain : Str
  floatingMarker : Str
  resolver : List (Str × Str)
  store : List RegistryEntry
deriving DecidableEq

/-- Modelled from the spec: the Floating Registry (4.5): a store keyed by the full qualified
Name, with its configured floating domain. -/
structure FloatingRegistry where
  floatingDomain : Str
  store : List RegistryEntry
deriving DecidableEq

/-- Modelled from the spec: what can be dialed at an address: a domain's Local Registry or a
Floating Registry, interchangeable downstream targets of a Proxy Registry (section 2). -/
inductive Registry
  | localRegistry (r : LocalRegistry)
  | floatingRegistry (r : FloatingRegistry)
deriving DecidableEq

/-- Modelled from the spec: the federation: the registries reachable by address. -/
structure World where
  registries : List (Str × Registry)
deriving DecidableEq

/-- Replace the registry served at an address. -/
def World.setRegistry (w : World) (address : Str) (r : Registry) : World :=
  { registries := w.registries.map (fun p => if p.1 = address then (p.1, r) else p) }

/-- Modelled from the spec: the key of the Floating Registry (4.5): the full qualified Name,
base plus floating-domain suffix; a name that already ends in the configured floating domain
is its own key (matching is insensitive to that suffix). -/
def floatingKey (r : FloatingRegistry) (name : Str) : Str :=
  match popSuffix name with
  | .ok (_, some d) => if d = r.floatingDomain then name else pushSuffix name r.floatingDomain
  | _ => pushSuffix name r.floatingDomain

/-- Modelled from the spec: the response rewriting of the Proxy Registry (4.4 step 4): the
suffix the remote side reported is replaced by an address as new outermost suffix. Step 4
words that address as the one dialed; Scenario A and Scenario C of section 8 and the tests
`TestInterdomainNetworkServiceEndpointRegistry` and
`TestInterdomainFloatingNetworkServiceEndpointRegistry`, where the registry dialed has a URL
of its own, expect the address the entry advertises (`nse-1` advertised at `nsmgr-url` is
seen as `nse-1@nsmgr-url`), and that is what is modelled. -/
def rewriteName (e : RegistryEntry) : RegistryEntry :=
  { e with name := compose (baseOf e.name) [e.url] }

/-- Modelled from the spec: `Find` entering the registry served at `address` (4.3, 4.4, 4.5).
`hops` is the traversed-hop list of the call. At a Local Registry: a malformed name is
`InvalidName`; a name without suffix, or whose outermost suffix is the local domain, is
looked up by its base identifier in the local store; a foreign suffix hands the query to the
Proxy Registry, which resolves the outermost label, refuses an address already traversed
(`FederationLoop`), forwards the query stripped of that label and rewrites the results.
A dial to an address nobody serves is `Unavailable`. The recursion is on the number of hops
still allowed; `Find` below allows one more than there are registries. -/
def findAux : Nat → World → List Str → Str → Str → Nat →
    Except RegistryError (List RegistryEntry)
  | 0, _, _, _, _, _ => .error .FederationLoop
  | fuel + 1, w, hops, address, query, now =>
    match w.registries.lookup address with
    | none => .error .Unavailable
    | some (.floatingRegistry r) =>
      match parse query with
      | .error err => .error err
      | .ok _ => .ok (storeFind r.store (floatingKey r query) now)
    | some (.localRegistry r) =>
      match parse query with
      | .error err => .error err
      | .ok (base, domains) =>
        match domains.getLast? with
        | none => .ok (storeFind r.store base now)
        | some d =>
          if d = r.localDomain then .ok (storeFind r.store base now)
          else
            match resolve r.resolver d with
            | .error err => .error err
            | .ok next =>
              if next ∈ hops then .error .FederationLoop
              else
                match findAux fuel w (next :: hops) next (compose base domains.dropLast) now with
                | .error err => .error err
                | .ok found => .ok (found.map rewriteName)

/-- Modelled from the spec: `Register` entering the registry served at `address` (4.3, 4.4,
4.5). At a Local Registry an entry whose Name carries the floating marker as suffix is
forwarded to the Proxy Registry without being stored locally; any other well-formed entry is
stored or refreshed locally first and then, when its Name carries a suffix, forwarded
unmodified to the Proxy Registry, the continuation of the local chain that every domain
has here (the tests build `local registry --> proxy registry`). The Proxy Registry resolves
the outermost label, refuses a traversed address and forwards the entry with the label
stripped; a Name without suffix gives it nothing to resolve. A failed forward is the result of
the call. A Floating Registry stores under the full qualified key. -/
def registerAux : Nat → World → List Str → Str → RegistryEntry → Except RegistryError World
  | 0, _, _, _, _ => .error .FederationLoop
  | fuel + 1, w, hops, address, e =>
    match w.registries.lookup address with
    | none => .error .Unavailable
    | some (.floatingRegistry r) =>
      match parse e.name with
      | .error err => .error err
      | .ok _ =>
        .ok (w.setRegistry address (.floatingRegistry
          { r with store := storeRegister r.store { e with name := floatingKey r e.name } }))
    | some (.localRegistry r) =>
      match parse e.name with
      | .error err => .error err
      | .ok (base, domains) =>
        match domains.getLast? with
        | none =>
          .ok (w.setRegistry address (.localRegistry
            { r with store := storeRegister r.store e }))
        | some d =>
          match resolve r.resolver d with
          | .error err => .error err
          | .ok next =>
            if next ∈ hops then .error .FederationLoop
            else registerAux fuel
              (if d = r.floatingMarker then w
                else w.setRegistry address (.localRegistry
                  { r with store := storeRegister r.store e }))
              (next :: hops) next { e with name := compose base domains.dropLast }

/-- Modelled from the spec: a client's `Find` against the registry at `address`. -/
def Find (w : World) (address query : Str) (now : Nat) :
    Except RegistryError (List RegistryEntry) :=
  findAux (w.registries.length + 1) w [address] address query now

/-- Modelled from the spec: a client's `Register` against the registry at `address`. -/
def Register (w : World) (address : Str) (e : RegistryEntry) : Except RegistryError World :=
  registerAux (w.registries.length + 1) w [address] address e

end Interdomain

namespace Dnsresolve

/-- Keys of context values. `contextKey` is the unexported string type of this package
(`context.go`, line 21); a key of any other type is a different key even when its text is
the same. -/
inductive Key
  | contextKey (s : Str)
  | foreignKey (s : Str)
deriving DecidableEq, Repr

/-- The constant `domainKey contextKey = "dnsresolve.Domain"` (`context.go`, line 24). -/
def domainKey : Key := .contextKey "dnsresolve.Domain".toList

/-- A value carried by a context: a `*Domain` (possibly a nil pointer, `none`), or a value of
some other dynamic type. The `Domain` type is declared outside the given sources and is a
parameter. -/
inductive Value (Domain : Type)
  | domainPtr (p : Option Domain)
  | otherValue (s : Str)

/-- A `context.Context`: the background context; a context derived with `context.WithValue`
(the value `none` is the nil interface); or one derived for cancellation or a deadline, which
carries no value of its own. -/
inductive Context (Domain : Type)
  | background
  | withValue (parent : Context Domain) (key : Key) (val : Option (Value Domain))
  | withCancel (parent : Context Domain)

/-- The method `ctx.Value(key)`: the value of the innermost `WithValue` for that key, the nil
interface when there is none. -/
def Context.Value {Domain : Type} : Context Domain → Key → Option (Value Domain)
  | .background, _ => none
  | .withValue parent k v, key => if k = key then v else parent.Value key
  | .withCancel parent, key => parent.Value key

/-- The function `WithDomain` (`context.go`, lines 27-30): `context.WithValue(ctx, domainKey, &domain)`. -/
def WithDomain {Domain : Type} (ctx : Context Domain) (domain : Domain) : Context Domain :=
  .withValue ctx domainKey (some (.domainPtr (some domain)))

/-- The function `domainOf` (`context.go`, lines 32-39): the value under `domainKey` when it is not the
nil interface and is a `*Domain`, otherwise the nil pointer. -/
def domainOf {Domain : Type} (ctx : Context Domain) : Option Domain :=
  match ctx.Value domainKey with
  | some (.domainPtr val) => val
  | _ => none

end Dnsresolve

namespace Expire

/-- A `time.Duration`: a signed count of nanoseconds. -/
abbrev Duration := Int

/-- The interface `configurable` (`options.go`, lines 21-23): a single method `setPeriod`,
acting on the state `σ` of the object behind the interface. -/
structure configurable (σ : Type) where
  setPeriod : Duration → σ → σ

/-- The type `applierFunc func(configurable)` (`options.go`, line 30). -/
abbrev applierFunc (σ : Type) := configurable σ → σ → σ

/-- The method `applierFunc.apply` (`options.go`, lines 32-34): `f(c)`. -/
def applierFunc.apply {σ : Type} (f : applierFunc σ) (c : configurable σ) : σ → σ :=
  f c

/-- The interface `Option` (`options.go`, lines 26-28): a single method `apply`. -/
structure Option (σ : Type) where
  apply : configurable σ → σ → σ

/-- The function `WithPeriod` (`options.go`, lines 36-41): the `applierFunc` that calls
`c.setPeriod(duration)`, as an `Option`. -/
def WithPeriod {σ : Type} (duration : Duration) : Option σ :=
  { apply := applierFunc.apply (fun c => c.setPeriod duration) }

/-- Applying a list of options in order to one configurable. -/
def applyOptions {σ : Type} (c : configurable σ) (options : List (Option σ)) (s : σ) : σ :=
  options.foldl (fun acc o => o.apply c acc) s

/-- A configurable that records the arguments of every `setPeriod` call it receives. -/
def callRecorder : configurable (List Duration) :=
  { setPeriod := fun d calls => calls ++ [d] }

/-- A configurable that keeps the period it was last given. -/
def periodHolder : configurable Duration :=
  { setPeriod := fun d _ => d }

end Expire

namespace Dnscontext

/-- The message `networkservice.DNSConfig`, with the two fields the sources use. -/
structure DNSConfig where
  DnsServerIps : List Str
  SearchDomains : List Str
deriving DecidableEq, Repr

/-- The message `networkservice.IPContext`, with the field the sources read. -/
structure IPContext where
  DstIpAddr : Str
deriving DecidableEq, Repr

/-- The message `networkservice.DNSContext`. -/
structure DNSContext where
  Configs : List DNSConfig
deriving DecidableEq, Repr

/-- The message `networkservice.ConnectionContext`; a message field is a pointer, `none` when
nil. -/
structure ConnectionContext where
  IpContext : Option IPContext
  DnsContext : Option DNSContext
deriving DecidableEq, Repr

/-- The message `networkservice.Connection`, with the fields the sources read. -/
structure Connection where
  NetworkService : Str
  Context : Option ConnectionContext
deriving DecidableEq, Repr

/-- The generated getter `(*Connection).GetNetworkService`: the empty string on nil. -/
def GetNetworkService : Option Connection → Str
  | some conn => conn.NetworkService
  | none => []

/-- The generated getter `(*Connection).GetContext`: nil on nil. -/
def GetContext : Option Connection → Option ConnectionContext
  | some conn => conn.Context
  | none => none

/-- The generated getter `(*ConnectionContext).GetIpContext`: nil on nil. -/
def GetIpContext : Option ConnectionContext → Option IPContext
  | some c => c.IpContext
  | none => none

/-- The generated getter `(*ConnectionContext).GetDnsContext`: nil on nil. -/
def GetDnsContext : Option ConnectionContext → Option DNSContext
  | some c => c.DnsContext
  | none => none

/-- The generated getter `(*IPContext).GetDstIpAddr`: the empty string on nil. -/
def GetDstIpAddr : Option IPContext → Str
  | some ip => ip.DstIpAddr
  | none => []

/-- The generated getter `(*DNSContext).GetConfigs`: no configs on nil. -/
def GetConfigs : Option DNSContext → List DNSConfig
  | some d => d.Configs
  | none => []

/-- The type `GetDNSConfigsFunc`: a getter of DNS configs from a connection (a pointer, `none`
when nil). -/
abbrev GetDNSConfigsFunc := Option Connection → List DNSConfig

/-- The function `ConfigFromConnection` (`utils.go`, lines 23-35). -/
def ConfigFromConnection : GetDNSConfigsFunc := fun conn =>
  let domain := GetNetworkService conn
  let ip := GetDstIpAddr (GetIpContext (GetContext conn))
  [{ DnsServerIps := [ip], SearchDomains := [domain] }]

/-- Modelled from the spec: the DNS-config manager `dnscontext.Manager` of `pkg/tools`, an
external collaborator of which the sources show the calls `NewManager`, `Store`, `Remove`
and `String` only: the configs stored per connection id. -/
abbrev Manager := List (Str × List DNSConfig)

/-- Modelled from the spec: `dnscontext.NewManager()`: nothing stored. -/
def NewManager : Manager := []

/-- Modelled from the spec: `Manager.Remove(id)`: forget what is stored under the id. -/
def Manager.Remove (m : Manager) (id : Str) : Manager :=
  m.filter (fun p => p.1 != id)

/-- Modelled from the spec: `Manager.Store(id, configs...)`: the configs become what is stored
under the id. -/
def Manager.Store (m : Manager) (id : Str) (configs : List DNSConfig) : Manager :=
  (id, configs) :: Manager.Remove m id

/-- Modelled from the spec: the resolve config `dnscontext.ResolveConfig` of `pkg/tools`, an
external collaborator of which the sources show the calls `OpenResolveConfig`, `Value`,
`SetValue` and `Save` only: the values of each property of the file. -/
abbrev ResolveConfig := List (Str × List Str)

/-- Modelled from the spec: `ResolveConfig.Value(key)`: the values of the property, none when
the property is absent. -/
def ResolveConfig.Value (r : ResolveConfig) (key : Str) : List Str :=
  (r.lookup key).getD []

/-- Modelled from the spec: `ResolveConfig.SetValue(key, values...)`: the property now has
exactly these values. -/
def ResolveConfig.SetValue (r : ResolveConfig) (key : Str) (values : List Str) :
    ResolveConfig :=
  (key, values) :: r.filter (fun p => p.1 != key)

/-- The file at `resolveConfigPath`: its parsed content when it can be opened, and whether a
`Save` to it succeeds (the code handles an error of either call). -/
structure ResolveConfigFile where
  content : Option ResolveConfig
  saveSucceeds : Bool
deriving DecidableEq, Repr

/-- Modelled from the spec: `dnscontext.OpenResolveConfig(path)`: the content of the file, an
error when it cannot be opened. -/
def OpenResolveConfig (file : ResolveConfigFile) : Except Unit ResolveConfig :=
  match file.content with
  | some r => .ok r
  | none => .error ()

/-- Modelled from the spec: `ResolveConfig.Save()`: the file holds the config when the save
succeeds and is left as it was when it fails. -/
def ResolveConfig.Save (r : ResolveConfig) (file : ResolveConfigFile) : ResolveConfigFile :=
  if file.saveSucceeds then { file with content := some r } else file

/-- The struct `dnsContextClient` (`client.go`, lines 34-42): the core file path, the config
manager, and whether `monitorContext` is cancelled (by `cancelMonitoring` or through the
chain context it derives from). The monitor client, the call options and the executor act
through the arguments and the result of `monitorConfigs`. -/
structure dnsContextClient where
  coreFilePath : Str
  dnsConfigManager : Manager
  monitorCancelled : Bool
deriving DecidableEq, Repr

/-- The outcome of `NewClient`: the client returned and the resolve config file afterwards. -/
structure NewClientResult where
  client : dnsContextClient
  file : ResolveConfigFile
deriving DecidableEq, Repr

/-- The function `NewClient` (`client.go`, lines 44-68). `chainCancelled` is the state of `chainContext`;
`AnyDomain` and `NameserverProperty` are the constants of `pkg/tools/dnscontext`, declared
outside the given sources and taken as parameters. -/
def NewClient (AnyDomain NameserverProperty : Str) (chainCancelled : Bool)
    (coreFilePath : Str) (file : ResolveConfigFile) : NewClientResult :=
  let c : dnsContextClient :=
    { coreFilePath := coreFilePath
      dnsConfigManager := NewManager
      monitorCancelled := chainCancelled }
  match OpenResolveConfig file with
  | .error _ => { client := c, file := file }
  | .ok r =>
    let manager := c.dnsConfigManager.Store []
      [{ SearchDomains := r.Value AnyDomain, DnsServerIps := r.Value NameserverProperty }]
    let r1 := r.SetValue NameserverProperty ["127.0.0.1".toList]
    { client := { c with dnsConfigManager := manager }
      file := r1.Save file }

/-- The method `dnsContextClient.Close` (`client.go`, lines 79-86): when the next client fails the error
is returned and nothing is cancelled; otherwise `cancelMonitoring` is called. The result is
the client afterwards and whether the call succeeded. -/
def dnsContextClient.Close (c : dnsContextClient) (nextFails : Bool) :
    dnsContextClient × Bool :=
  if nextFails then (c, false) else ({ c with monitorCancelled := true }, true)

/-- The enum `networkservice.ConnectionEventType`. -/
inductive ConnectionEventType
  | INITIAL_STATE_TRANSFER
  | UPDATE
  | DELETE
  | otherType
deriving DecidableEq, Repr

/-- The message `networkservice.ConnectionEvent`: a type and the connections by id. -/
structure ConnectionEvent where
  EventType : ConnectionEventType
  Connections : List (Str × Connection)
deriving DecidableEq, Repr

/-- The configs a connection carries: `v.GetContext().GetDnsContext().GetConfigs()`. -/
def configsOf (v : Connection) : List DNSConfig :=
  GetConfigs (GetDnsContext (GetContext (some v)))

/-- The method `dnsContextClient.handleEvent` (`client.go`, lines 110-127), on the config manager. -/
def handleEvent (m : Manager) (event : ConnectionEvent) : Manager :=
  match event.EventType with
  | .INITIAL_STATE_TRANSFER =>
    event.Connections.foldl (fun acc kv => acc.Store kv.1 (configsOf kv.2)) m
  | .UPDATE =>
    event.Connections.foldl (fun acc kv => (acc.Remove kv.1).Store kv.1 (configsOf kv.2)) m
  | .DELETE =>
    event.Connections.foldl (fun acc kv => acc.Remove kv.1) m
  | .otherType => m

/-- What one execution of `monitorConfigs` did: whether it returned (it does not while `Recv`
blocks on a stream that delivers nothing more), how many times it scheduled `monitorConfigs`
again through `executor.AsyncExec`, the contents it wrote to the core file in order, and the
config manager afterwards. -/
structure MonitorOutcome where
  returned : Bool
  scheduledAgain : Nat
  coreFileWrites : List Str
  manager : Manager
deriving DecidableEq, Repr

/-- The `for` loop of `monitorConfigs` (`client.go`, lines 94-107). `ctxErr i` tells whether
`c.monitorContext.Err() != nil` at check number `i`; `stream` lists what the successive calls
of `Recv` return; `render` is `Manager.String`. -/
def monitorLoop (render : Manager → Str) (ctxErr : Nat → Bool) :
    List (Except Unit ConnectionEvent) → Nat → Manager → List Str → MonitorOutcome
  | [], i, m, writes =>
    if ctxErr i then { returned := true, scheduledAgain := 0, coreFileWrites := writes, manager := m }
    else { returned := false, scheduledAgain := 0, coreFileWrites := writes, manager := m }
  | .error _ :: _, i, m, writes =>
    if ctxErr i then { returned := true, scheduledAgain := 0, coreFileWrites := writes, manager := m }
    else { returned := true, scheduledAgain := 1, coreFileWrites := writes, manager := m }
  | .ok event :: rest, i, m, writes =>
    if ctxErr i then { returned := true, scheduledAgain := 0, coreFileWrites := writes, manager := m }
    else
      let m1 := handleEvent m event
      monitorLoop render ctxErr rest (i + 1) m1 (writes ++ [render m1])

/-- The method `dnsContextClient.monitorConfigs` (`client.go`, lines 88-108). `monitor` is what
`monitorClient.MonitorConnections` returns: an error, or a stream given by the results of
its successive `Recv` calls. `cancelledLater i` tells whether the monitor context, when not
cancelled at the start, has been cancelled by check number `i` of the loop. -/
def dnsContextClient.monitorConfigs (c : dnsContextClient) (render : Manager → Str)
    (cancelledLater : Nat → Bool)
    (monitor : Except Unit (List (Except Unit ConnectionEvent))) : MonitorOutcome :=
  match monitor with
  | .error _ =>
    { returned := true, scheduledAgain := 1, coreFileWrites := [],
      manager := c.dnsConfigManager }
  | .ok stream =>
    monitorLoop render (fun i => c.monitorCancelled || cancelledLater i) stream 0
      c.dnsConfigManager []

end Dnscontext

namespace Interdomain

theorem splitOn_compose (base : Str) (domains : List Str)
    (hb : separator ∉ base) (hds : ∀ d ∈ domains, separator ∉ d) :
    (compose base domains).splitOn separator = base :: domains := by
  unfold compose
  apply List.splitOn_intercalate
  · intro l hl
    rcases List.mem_cons.mp hl with h | h
    · subst h; exact hb
    · exact hds l h
  · simp

theorem parse_compose (base : Str) (domains : List Str)
    (hb : wellFormed base) (hds : ∀ d ∈ domains, wellFormed d) :
    parse (compose base domains) = .ok (base, domains) := by
  unfold parse
  rw [splitOn_compose base domains hb.2 (fun d hd => (hds d hd).2)]
  have h1 : base.isEmpty = false := by
    cases base with
    | nil => exact absurd rfl hb.1
    | cons c cs => rfl
  have h2 : domains.any List.isEmpty = false := by
    rw [Bool.eq_false_iff]
    intro h
    rw [List.any_eq_true] at h
    obtain ⟨d, hd, hde⟩ := h
    have := (hds d hd).1
    cases d with
    | nil => exact this rfl
    | cons c cs => simp at hde
  simp [h1, h2]

theorem parse_plain (n : Str) (hn : wellFormed n) : parse n = .ok (n, []) := by
  have h := parse_compose n [] hn (by simp)
  simpa [compose, List.intercalate] using h

theorem baseOf_append (n rest : Str) (hn : separator ∉ n) :
    baseOf (n ++ separator :: rest) = n := by
  unfold baseOf
  induction n with
  | nil => simp [List.takeWhile]
  | cons c cs ih =>
    have hc : c ≠ separator := fun h => hn (by simp [h])
    have hcs : separator ∉ cs := fun h => hn (List.mem_cons_of_mem _ h)
    have hb : (c != separator) = true := by simpa using hc
    simp [List.takeWhile, hb, ih hcs]

theorem baseOf_plain (n : Str) (hn : separator ∉ n) : baseOf n = n := by
  unfold baseOf
  rw [List.takeWhile_eq_self_iff]
  intro c hc
  simp only [bne_iff_ne, ne_eq]
  exact fun h => hn (h ▸ hc)

theorem lookup_map_set_self (regs : List (Str × Registry)) (a : Str) (r r0 : Registry)
    (h : regs.lookup a = some r0) :
    (regs.map (fun p => if p.1 = a then (p.1, r) else p)).lookup a = some r := by
  induction regs with
  | nil => simp at h
  | cons p ps ih =>
    obtain ⟨k, v⟩ := p
    by_cases hk : k = a
    · subst hk
      simp [List.lookup_cons]
    · have hne : (a == k) = false := by
        rw [beq_eq_false_iff_ne]; exact fun h => hk h.symm
      rw [List.lookup_cons, hne] at h
      rw [List.map_cons, if_neg hk, List.lookup_cons, hne]
      exact ih h

theorem lookup_map_set_ne (regs : List (Str × Registry)) (a b : Str) (r : Registry)
    (hab : b ≠ a) :
    (regs.map (fun p => if p.1 = a then (p.1, r) else p)).lookup b = regs.lookup b := by
  induction regs with
  | nil => rfl
  | cons p ps ih =>
    obtain ⟨k, v⟩ := p
    by_cases hk : k = a
    · subst hk
      have hne : (b == k) = false := by
        rw [beq_eq_false_iff_ne]; exact hab
      rw [List.map_cons, if_pos rfl, List.lookup_cons, List.lookup_cons, hne]
      exact ih
    · rw [List.map_cons, if_neg hk, List.lookup_cons, List.lookup_cons, ih]

theorem lookup_setRegistry_self (w : World) (a : Str) (r r0 : Registry)
    (h : w.registries.lookup a = some r0) :
    (w.setRegistry a r).registries.lookup a = some r :=
  lookup_map_set_self w.registries a r r0 h

theorem lookup_setRegistry_ne (w : World) (a b : Str) (r : Registry) (hab : b ≠ a) :
    (w.setRegistry a r).registries.lookup b = w.registries.lookup b :=
  lookup_map_set_ne w.registries a b r hab

theorem length_setRegistry (w : World) (a : Str) (r : Registry) :
    (w.setRegistry a r).registries.length = w.registries.length := by
  simp [World.setRegistry]

theorem length_pos_of_lookup (regs : List (Str × Registry)) (a : Str) (r : Registry)
    (h : regs.lookup a = some r) : 0 < regs.length := by
  cases regs with
  | nil => simp at h
  | cons p ps => simp

theorem storeFind_storeRegister (store : List RegistryEntry) (e : RegistryEntry) (now : Nat)
    (hlive : now < e.expiration) :
    storeFind (storeRegister store e) e.name now = [e] := by
  unfold storeFind storeRegister
  rw [List.filter_cons]
  simp only [beq_self_eq_true, hlive, decide_True, Bool.and_self, ↓reduceIte,
    List.filter_filter]
  congr 1
  rw [List.filter_eq_nil_iff]
  intro x _
  by_cases hx : x.name = e.name <;> simp [hx]

theorem findAux_home (fuel : Nat) (w : World) (hops : List Str) (a q : Str) (now : Nat)
    (A : LocalRegistry) (base : Str) (ds : List Str)
    (hA : w.registries.lookup a = some (.localRegistry A))
    (hq : parse q = .ok (base, ds))
    (hd : ds.getLast? = none ∨ ds.getLast? = some A.localDomain) :
    findAux (fuel + 1) w hops a q now = .ok (storeFind A.store base now) := by
  rcases hd with hd | hd <;> simp [findAux, hA, hq, hd]

theorem findAux_forward (fuel : Nat) (w : World) (hops : List Str) (a q : Str) (now : Nat)
    (A : LocalRegistry) (base d next : Str) (ds : List Str)
    (hA : w.registries.lookup a = some (.localRegistry A))
    (hq : parse q = .ok (base, ds))
    (hlast : ds.getLast? = some d) (hne : d ≠ A.localDomain)
    (hres : A.resolver.lookup d = some next) (hhop : next ∉ hops) :
    findAux (fuel + 1) w hops a q now =
      match findAux fuel w (next :: hops) next (compose base ds.dropLast) now with
      | .error err => .error err
      | .ok found => .ok (found.map rewriteName) := by
  simp [findAux, hA, hq, hlast, hne, resolve, hres, hhop]

theorem findAux_floating (fuel : Nat) (w : World) (hops : List Str) (a q : Str) (now : Nat)
    (F : FloatingRegistry) (p : Str × List Str)
    (hF : w.registries.lookup a = some (.floatingRegistry F))
    (hq : parse q = .ok p) :
    findAux (fuel + 1) w hops a q now = .ok (storeFind F.store (floatingKey F q) now) := by
  simp [findAux, hF, hq]

theorem registerAux_store (fuel : Nat) (w : World) (hops : List Str) (a : Str)
    (e : RegistryEntry) (A : LocalRegistry) (base : Str) (ds : List Str)
    (hA : w.registries.lookup a = some (.localRegistry A))
    (hq : parse e.name = .ok (base, ds))
    (hd : ds.getLast? = none) :
    registerAux (fuel + 1) w hops a e =
      .ok (w.setRegistry a (.localRegistry { A with store := storeRegister A.store e })) := by
  simp [registerAux, hA, hq, hd]

theorem registerAux_forward (fuel : Nat) (w : World) (hops : List Str) (a : Str)
    (e : RegistryEntry) (A : LocalRegistry) (base d next : Str) (ds : List Str)
    (hA : w.registries.lookup a = some (.localRegistry A))
    (hq : parse e.name = .ok (base, ds))
    (hd : ds.getLast? = some d)
    (hres : A.resolver.lookup d = some next) (hhop : next ∉ hops) :
    registerAux (fuel + 1) w hops a e =
      registerAux fuel
        (if d = A.floatingMarker then w
          else w.setRegistry a (.localRegistry { A with store := storeRegister A.store e }))
        (next :: hops) next { e with name := compose base ds.dropLast } := by
  simp [registerAux, hA, hq, hd, resolve, hres, hhop]

theorem lookup_after_local_store (w : World) (a c fl : Str) (A C : LocalRegistry)
    (F : FloatingRegistry) (store1 : List RegistryEntry) (skip : Prop) [Decidable skip]
    (hA : w.registries.lookup a = some (.localRegistry A))
    (hC : w.registries.lookup c = some (.localRegistry C))
    (hF : w.registries.lookup fl = some (.floatingRegistry F)) :
    (if skip then w else w.setRegistry c (.localRegistry { C with store := store1 })
      ).registries.lookup fl = some (.floatingRegistry F) ∧
    (if skip then w else w.setRegistry c (.localRegistry { C with store := store1 })
      ).registries.length = w.registries.length ∧
    ∃ A2 : LocalRegistry,
      (if skip then w else w.setRegistry c (.localRegistry { C with store := store1 })
        ).registries.lookup a = some (.localRegistry A2) ∧
      A2.resolver = A.resolver ∧ A2.localDomain = A.localDomain := by
  have hcfl : fl ≠ c := by
    intro h; rw [h, hC] at hF; cases hF
  by_cases hs : skip
  · rw [if_pos hs]
    exact ⟨hF, rfl, A, hA, rfl, rfl⟩
  · rw [if_neg hs]
    refine ⟨(lookup_setRegistry_ne w c fl _ hcfl).trans hF, length_setRegistry w c _, ?_⟩
    by_cases hac : a = c
    · subst hac
      have hAC : A = C := by
        rw [hA] at hC; cases hC; rfl
      subst hAC
      exact ⟨{ A with store := store1 }, lookup_setRegistry_self w a _ _ hA, rfl, rfl⟩
    · exact ⟨A, (lookup_setRegistry_ne w c a _ hac).trans hA, rfl, rfl⟩

theorem registerAux_floating (fuel : Nat) (w : World) (hops : List Str) (a : Str)
    (e : RegistryEntry) (F : FloatingRegistry) (p : Str × List Str)
    (hF : w.registries.lookup a = some (.floatingRegistry F))
    (hq : parse e.name = .ok p) :
    registerAux (fuel + 1) w hops a e =
      .ok (w.setRegistry a (.floatingRegistry
        { F with store := storeRegister F.store { e with name := floatingKey F e.name } })) := by
  simp [registerAux, hF, hq]

theorem floatingKey_plain (F : FloatingRegistry) (n : Str) (hn : wellFormed n) :
    floatingKey F n = n ++ separator :: F.floatingDomain := by
  simp [floatingKey, popSuffix, parse_plain n hn, pushSuffix]

/-- Claim C1 (Scenario A, cross-domain Find): an unexpired endpoint registered under a plain
name `n` with URL `u` in the local registry `b` of a remote domain, and a domain label `d`,
foreign to the domain of `a`, that the resolver of `a` maps to `b`: the Register succeeds and
a Find for `n@d` against the local registry `a` of another domain succeeds with exactly one
endpoint, whose name is `n@u`. -/
theorem C1_cross_domain_find (w : World) (a b : Str) (A B : LocalRegistry)
    (n u d : Str) (expiration now : Nat) (labels : List (Str × Str))
    (hA : w.registries.lookup a = some (.localRegistry A))
    (hB : w.registries.lookup b = some (.localRegistry B))
    (hab : a ≠ b) (hn : wellFormed n) (hd : wellFormed d)
    (hres : A.resolver.lookup d = some b) (hforeign : d ≠ A.localDomain)
    (hlive : now < expiration) :
    ∃ w1, Register w b ⟨n, u, expiration, labels⟩ = .ok w1 ∧
      ∃ e, Find w1 a (compose n [d]) now = .ok [e] ∧ e.name = compose n [u] := by
  have hpn := parse_plain n hn
  refine ⟨w.setRegistry b (.localRegistry
    { B with store := storeRegister B.store ⟨n, u, expiration, labels⟩ }), ?_, ?_⟩
  · exact registerAux_store _ w [b] b ⟨n, u, expiration, labels⟩ B n [] hB hpn rfl
  · have hA1 := (lookup_setRegistry_ne w b a (.localRegistry
      { B with store := storeRegister B.store ⟨n, u, expiration, labels⟩ }) hab).trans hA
    have hB1 := lookup_setRegistry_self w b (.localRegistry
      { B with store := storeRegister B.store ⟨n, u, expiration, labels⟩ }) _ hB
    have hlen := length_pos_of_lookup _ _ _ hA1
    obtain ⟨k, hk⟩ := Nat.exists_eq_succ_of_ne_zero (Nat.pos_iff_ne_zero.mp hlen)
    have hq : parse (compose n [d]) = .ok (n, [d]) :=
      parse_compose n [d] hn (by simpa using hd)
    have hhop : b ∉ [a] := by simpa using fun h => hab h.symm
    refine ⟨rewriteName ⟨n, u, expiration, labels⟩, ?_, ?_⟩
    · unfold Find
      rw [findAux_forward _ _ [a] a _ now A n d b [d] hA1 hq rfl hforeign hres hhop, hk]
      have hhome := findAux_home k _ [b, a] b (compose n ([d] : List Str).dropLast) now _ n []
        hB1 (by simpa [compose, List.intercalate] using hpn) (Or.inl rfl)
      rw [hhome]
      have hs := storeFind_storeRegister B.store ⟨n, u, expiration, labels⟩ now hlive
      simp only at hs
      simp [hs]
    · simp [rewriteName, baseOf_plain n hn.2]

/-- Witness for C1: the data of `TestInterdomainNetworkServiceEndpointRegistry`. -/
theorem C1_cross_domain_find_witness :
    ∃ w1, Register
        ⟨[("domain1".toList, .localRegistry
            ⟨[], [], [("domain2.local.registry".toList, "domain2".toList)], []⟩),
          ("domain2".toList, .localRegistry ⟨[], [], [], []⟩)]⟩
        "domain2".toList ⟨"nse-1".toList, "nsmgr-url".toList, 3600, []⟩ = .ok w1 ∧
      ∃ e, Find w1 "domain1".toList
          (compose "nse-1".toList ["domain2.local.registry".toList]) 0 = .ok [e] ∧
        e.name = compose "nse-1".toList ["nsmgr-url".toList] :=
  C1_cross_domain_find _ "domain1".toList "domain2".toList
    ⟨[], [], [("domain2.local.registry".toList, "domain2".toList)], []⟩ ⟨[], [], [], []⟩
    "nse-1".toList "nsmgr-url".toList "domain2.local.registry".toList 3600 0 []
    (by decide) (by decide) (by decide) (by decide) (by decide) (by decide) (by decide)
    (by decide)

/-- Claim C2 (Scenario B, name that resolves to the local domain): in a domain whose
configured local domain name is `d`, after registering an unexpired endpoint with plain
name `n` and URL `u` in its local registry `a`, a Find for `n@d` against the same registry
returns exactly one endpoint, whose name is `n` (suffix stripped) and whose URL is `u`. -/
theorem C2_local_domain_find (w : World) (a : Str) (A : LocalRegistry)
    (n u d : Str) (expiration now : Nat) (labels : List (Str × Str))
    (hA : w.registries.lookup a = some (.localRegistry A))
    (hdom : A.localDomain = d) (hn : wellFormed n) (hd : wellFormed d)
    (hlive : now < expiration) :
    ∃ w1, Register w a ⟨n, u, expiration, labels⟩ = .ok w1 ∧
      ∃ e, Find w1 a (compose n [d]) now = .ok [e] ∧ e.name = n ∧ e.url = u := by
  have hpn := parse_plain n hn
  refine ⟨w.setRegistry a (.localRegistry
    { A with store := storeRegister A.store ⟨n, u, expiration, labels⟩ }), ?_, ?_⟩
  · exact registerAux_store _ w [a] a ⟨n, u, expiration, labels⟩ A n [] hA hpn rfl
  · have hA1 := lookup_setRegistry_self w a (.localRegistry
      { A with store := storeRegister A.store ⟨n, u, expiration, labels⟩ }) _ hA
    have hq : parse (compose n [d]) = .ok (n, [d]) :=
      parse_compose n [d] hn (by simpa using hd)
    refine ⟨⟨n, u, expiration, labels⟩, ?_, rfl, rfl⟩
    unfold Find
    rw [findAux_home _ _ [a] a _ now _ n [d] hA1 hq (Or.inr (by simp [hdom]))]
    have hs := storeFind_storeRegister A.store ⟨n, u, expiration, labels⟩ now hlive
    simp only at hs
    simp [hs]

/-- Witness for C2: the data of `TestLocalDomain_NetworkServiceEndpointRegistry`. -/
theorem C2_local_domain_find_witness :
    ∃ w1, Register
        ⟨[("domain1".toList, .localRegistry
            ⟨"domain1.local.registry".toList, [],
              [("domain1.local.registry".toList, "domain1".toList)], []⟩)]⟩
        "domain1".toList ⟨"nse-1".toList, "test://publicNSMGRurl".toList, 3600, []⟩ = .ok w1 ∧
      ∃ e, Find w1 "domain1".toList
          (compose "nse-1".toList ["domain1.local.registry".toList]) 0 = .ok [e] ∧
        e.name = "nse-1".toList ∧ e.url = "test://publicNSMGRurl".toList :=
  C2_local_domain_find _ "domain1".toList
    ⟨"domain1.local.registry".toList, [],
      [("domain1.local.registry".toList, "domain1".toList)], []⟩
    "nse-1".toList "test://publicNSMGRurl".toList "domain1.local.registry".toList 3600 0 []
    (by decide) (by decide) (by decide) (by decide) (by decide)

/-- Claim C3 (Scenario C, floating registry): an unexpired endpoint registered through the
local registry `c` of one domain under the name `n@f` with URL `u`, where `f` is a domain
label the resolvers map to a floating registry `fl`: the Register succeeds, whatever the
floating marker of `c`, and a Find for `n@f` against the local registry `a` of a domain to
which `f` is foreign returns exactly one endpoint, named `n@u`. -/
theorem C3_floating_find (w : World) (a c fl : Str) (A C : LocalRegistry)
    (F : FloatingRegistry) (n u f : Str) (expiration now : Nat) (labels : List (Str × Str))
    (hA : w.registries.lookup a = some (.localRegistry A))
    (hC : w.registries.lookup c = some (.localRegistry C))
    (hF : w.registries.lookup fl = some (.floatingRegistry F))
    (hn : wellFormed n) (hf : wellFormed f)
    (hresC : C.resolver.lookup f = some fl) (hresA : A.resolver.lookup f = some fl)
    (hforeign : f ≠ A.localDomain) (hlive : now < expiration) :
    ∃ w1, Register w c ⟨compose n [f], u, expiration, labels⟩ = .ok w1 ∧
      ∃ e, Find w1 a (compose n [f]) now = .ok [e] ∧ e.name = compose n [u] := by
  have hpn := parse_plain n hn
  have hq : parse (compose n [f]) = .ok (n, [f]) :=
    parse_compose n [f] hn (by simpa using hf)
  have hstrip : compose n ([f] : List Str).dropLast = n := by
    simp [compose, List.intercalate]
  have hcfl : fl ≠ c := by
    intro h; rw [h, hC] at hF; cases hF
  have hafl : a ≠ fl := by
    intro h; rw [h, hF] at hA; cases hA
  have hlen := length_pos_of_lookup _ _ _ hA
  obtain ⟨k, hk⟩ := Nat.exists_eq_succ_of_ne_zero (Nat.pos_iff_ne_zero.mp hlen)
  let stored : RegistryEntry := ⟨n ++ separator :: F.floatingDomain, u, expiration, labels⟩
  let F1 : FloatingRegistry := { F with store := storeRegister F.store stored }
  obtain ⟨hFm, hlenm, A2, hA2, hres2, hdom2⟩ :=
    lookup_after_local_store w a c fl A C F
      (storeRegister C.store ⟨compose n [f], u, expiration, labels⟩)
      (f = C.floatingMarker) hA hC hF
  refine ⟨World.setRegistry
    (if f = C.floatingMarker then w
      else w.setRegistry c (.localRegistry
        { C with store := storeRegister C.store ⟨compose n [f], u, expiration, labels⟩ }))
    fl (.floatingRegistry F1), ?_, ?_⟩
  · unfold Register
    rw [registerAux_forward _ w [c] c _ C n f fl [f] hC hq rfl hresC (by simpa using hcfl),
      hk, hstrip]
    rw [registerAux_floating k _ [fl, c] fl _ F (n, []) hFm hpn]
    simp only [floatingKey_plain F n hn]
  · have hA1 := (lookup_setRegistry_ne _ fl a (.floatingRegistry F1) hafl).trans hA2
    have hF1 := lookup_setRegistry_self _ fl (.floatingRegistry F1) _ hFm
    have hlen1 := (length_setRegistry _ fl (.floatingRegistry F1)).trans hlenm
    refine ⟨rewriteName stored, ?_, ?_⟩
    · unfold Find
      rw [findAux_forward _ _ [a] a _ now A2 n f fl [f] hA1 hq rfl (hdom2 ▸ hforeign)
        (hres2 ▸ hresA) (by simpa using fun h => hafl h.symm), hlen1, hk, hstrip]
      rw [findAux_floating k _ [fl, a] fl n now F1 (n, []) hF1 hpn]
      have hkey : floatingKey F1 n = stored.name := floatingKey_plain F1 n hn
      rw [hkey, storeFind_storeRegister F.store stored now hlive]
      rfl
    · simp [rewriteName, stored, baseOf_append n _ hn.2]

/-- Witness for C3: the data of `TestInterdomainFloatingNetworkServiceEndpointRegistry`, no
domain having a floating marker configured. -/
theorem C3_floating_find_witness :
    ∃ w1, Register
        ⟨[("domain1".toList, .localRegistry
            ⟨[], [], [("domain2.floating.registry".toList, "floating".toList)], []⟩),
          ("domain2".toList, .localRegistry
            ⟨[], [], [("domain2.floating.registry".toList, "floating".toList)], []⟩),
          ("floating".toList, .floatingRegistry ⟨"domain2.floating.registry".toList, []⟩)]⟩
        "domain2".toList
        ⟨compose "nse-1".toList ["domain2.floating.registry".toList],
          "test://publicNSMGRurl".toList, 3600, []⟩ = .ok w1 ∧
      ∃ e, Find w1 "domain1".toList
          (compose "nse-1".toList ["domain2.floating.registry".toList]) 0 = .ok [e] ∧
        e.name = compose "nse-1".toList ["test://publicNSMGRurl".toList] :=
  C3_floating_find _ "domain1".toList "domain2".toList "floating".toList
    ⟨[], [], [("domain2.floating.registry".toList, "floating".toList)], []⟩
    ⟨[], [], [("domain2.floating.registry".toList, "floating".toList)], []⟩
    ⟨"domain2.floating.registry".toList, []⟩
    "nse-1".toList "test://publicNSMGRurl".toList "domain2.floating.registry".toList 3600 0 []
    (by decide) (by decide) (by decide) (by decide) (by decide) (by decide) (by decide)
    (by decide) (by decide)

/-- Claim C4, as stated, fails: with a domain that contains the separator, or an empty
domain, parsing the composed name does not give back the base and the domains. -/
theorem C4_separator_in_domain_counterexample :
    wellFormed "a".toList ∧
      parse (compose "a".toList ["b@c".toList]) = .ok ("a".toList, ["b".toList, "c".toList]) ∧
      parse (compose "a".toList ["b@c".toList]) ≠ .ok ("a".toList, ["b@c".toList]) ∧
      parse (compose "a".toList ["".toList]) = .error .InvalidName ∧
      parse (compose "a".toList ["".toList]) ≠ .ok ("a".toList, ["".toList]) := by
  decide

/-- Claim C4, amended (name codec round trip): for every well-formed base (not empty, without
the separator) and every sequence of domains each of which is not empty and without the
separator, `parse (compose base domains)` returns `(base, domains)` with no error. -/
theorem C4_round_trip_amended (base : Str) (domains : List Str)
    (hb : wellFormed base) (hds : ∀ d ∈ domains, wellFormed d) :
    parse (compose base domains) = .ok (base, domains) :=
  parse_compose base domains hb hds

/-- Witness for C4: the name `nse-1@domain2.local.registry@domain3`. -/
theorem C4_round_trip_amended_witness :
    parse (compose "nse-1".toList ["domain2.local.registry".toList, "domain3".toList]) =
      .ok ("nse-1".toList, ["domain2.local.registry".toList, "domain3".toList]) :=
  C4_round_trip_amended "nse-1".toList ["domain2.local.registry".toList, "domain3".toList]
    (by decide) (by decide)

end Interdomain

namespace Dnsresolve

/-- Claim C5 (dnsresolve context round trip): for every context `ctx`, also one that already
carries a domain, and every domain `d`, `domainOf (WithDomain ctx d)` is a non-nil pointer to
a value equal to `d`; the most recently put domain is the one read back. -/
theorem C5_domain_round_trip {Domain : Type} (ctx : Context Domain) (d : Domain) :
    domainOf (WithDomain ctx d) = some d ∧
      ∀ d0 : Domain, domainOf (WithDomain (WithDomain ctx d0) d) = some d := by
  constructor
  · simp [domainOf, WithDomain, Context.Value]
  · intro d0
    simp [domainOf, WithDomain, Context.Value]

end Dnsresolve

namespace Expire

theorem apply_WithPeriod {σ : Type} (c : configurable σ) (d : Duration) (s : σ) :
    (WithPeriod d).apply c s = c.setPeriod d s := rfl

theorem applyOptions_WithPeriod {σ : Type} (c : configurable σ) (ds : List Duration) (s : σ) :
    applyOptions c (ds.map WithPeriod) s = ds.foldl (fun acc d => c.setPeriod d acc) s := by
  unfold applyOptions
  induction ds generalizing s with
  | nil => rfl
  | cons d rest ih => simpa [apply_WithPeriod] using ih (c.setPeriod d s)

/-- Claim C6 (sweeper period option): applying `WithPeriod d` to any configurable `c` is one
call `c.setPeriod d` and nothing else (a configurable that records its calls receives exactly
the one call with argument `d`); applying a list of `WithPeriod` options in order is the
sequence of their `setPeriod` calls, so a configurable that keeps its period ends with the
duration of the last option. -/
theorem C6_with_period :
    (∀ (σ : Type) (c : configurable σ) (d : Duration) (s : σ),
        (WithPeriod d).apply c s = c.setPeriod d s) ∧
      (∀ (d : Duration) (calls : List Duration),
        (WithPeriod d).apply callRecorder calls = calls ++ [d]) ∧
      (∀ (σ : Type) (c : configurable σ) (ds : List Duration) (s : σ),
        applyOptions c (ds.map WithPeriod) s = ds.foldl (fun acc d => c.setPeriod d acc) s) ∧
      (∀ (ds : List Duration) (d p : Duration),
        applyOptions periodHolder ((ds ++ [d]).map WithPeriod) p = d) := by
  refine ⟨fun _ c d s => apply_WithPeriod c d s, fun _ _ => rfl,
    fun _ c ds s => applyOptions_WithPeriod c ds s, ?_⟩
  intro ds d p
  rw [applyOptions_WithPeriod, List.foldl_append]
  rfl

end Expire

namespace Dnscontext

/-- Claim C7 (`ConfigFromConnection`): for every connection, also a nil one or one without
context or IP context, the getter returns exactly one `DNSConfig`, whose `DnsServerIps` is
the one-element list of the destination IP address of the connection's IP context and whose
`SearchDomains` is the one-element list of its network service name, a missing field reading
as the empty string. -/
theorem C7_config_from_connection (conn : Option Connection) :
    ConfigFromConnection conn =
        [{ DnsServerIps :=
             [(((conn.bind (fun c => c.Context)).bind (fun c => c.IpContext)).map
               (fun ip => ip.DstIpAddr)).getD []]
           SearchDomains := [(conn.map (fun c => c.NetworkService)).getD []] }] ∧
      ConfigFromConnection none = [{ DnsServerIps := [[]], SearchDomains := [[]] }] := by
  constructor
  · rcases conn with _ | ⟨ns, _ | ⟨_ | ⟨ip⟩, dns⟩⟩ <;> rfl
  · rfl

theorem lookup_filter_ne (r : List (Str × List Str)) (key k : Str) (hkey : key ≠ k) :
    (r.filter (fun p => p.1 != k)).lookup key = r.lookup key := by
  have hne : (key == k) = false := by
    rw [beq_eq_false_iff_ne]; exact hkey
  induction r with
  | nil => rfl
  | cons p ps ih =>
    obtain ⟨k1, v⟩ := p
    by_cases hk : k1 = k
    · subst hk
      simp [List.filter_cons, List.lookup_cons, hne, ih]
    · simp [List.filter_cons, List.lookup_cons, hk, ih]

theorem value_setValue_self (r : ResolveConfig) (key : Str) (values : List Str) :
    (r.SetValue key values).Value key = values := by
  simp [ResolveConfig.Value, ResolveConfig.SetValue, List.lookup_cons]

theorem value_setValue_ne (r : ResolveConfig) (key k : Str) (values : List Str)
    (hkey : key ≠ k) : (r.SetValue k values).Value key = r.Value key := by
  have hne : (key == k) = false := by
    rw [beq_eq_false_iff_ne]; exact hkey
  unfold ResolveConfig.Value ResolveConfig.SetValue
  rw [List.lookup_cons, hne, lookup_filter_ne r key k hkey]

/-- Claim C8, as stated, fails: with `AnyDomain` the any-host zone `.` and a resolve config
file that opens with `nameserver 8.8.8.8` and `search example.com` but cannot be saved, the
config stored under `""` has no search domain although the file has `example.com`, and the
file still has `8.8.8.8`, not `127.0.0.1`, as nameserver after `NewClient`. -/
theorem C8_search_and_failed_save_counterexample :
    ResolveConfig.Value
        [("nameserver".toList, ["8.8.8.8".toList]), ("search".toList, ["example.com".toList])]
        "search".toList = ["example.com".toList] ∧
      (NewClient ".".toList "nameserver".toList false "Corefile".toList
          ⟨some [("nameserver".toList, ["8.8.8.8".toList]),
                 ("search".toList, ["example.com".toList])], false⟩).client.dnsConfigManager =
        [([], [{ DnsServerIps := ["8.8.8.8".toList], SearchDomains := [] }])] ∧
      (NewClient ".".toList "nameserver".toList false "Corefile".toList
          ⟨some [("nameserver".toList, ["8.8.8.8".toList]),
                 ("search".toList, ["example.com".toList])], false⟩).file.content.map
          (fun r => r.Value "nameserver".toList) = some ["8.8.8.8".toList] ∧
      (NewClient ".".toList "nameserver".toList false "Corefile".toList
          ⟨some [("nameserver".toList, ["8.8.8.8".toList]),
                 ("search".toList, ["example.com".toList])], false⟩).file.content.map
          (fun r => r.Value "nameserver".toList) ≠ some ["127.0.0.1".toList] := by
  decide

/-- Claim C8, amended (`NewClient`): when the resolve config file opens with content `r`, the
client's config manager holds under the key `""` exactly one `DNSConfig`, with `DnsServerIps`
the values `r` has under `NameserverProperty` and `SearchDomains` the values `r` has under
`AnyDomain`, both as they were before the rewrite; when the save succeeds the file holds `r`
with exactly `127.0.0.1` as nameserver property and every other property as it was, and when
the save fails the file is left as it was. When the file cannot be opened nothing is stored
in the manager, the resolve config file is not modified, and a client is still returned. -/
theorem C8_new_client_amended (AnyDomain NameserverProperty : Str) (chainCancelled : Bool)
    (coreFilePath : Str) (r : ResolveConfig) (saveSucceeds : Bool) :
    (NewClient AnyDomain NameserverProperty chainCancelled coreFilePath
        ⟨some r, saveSucceeds⟩).client =
      { coreFilePath := coreFilePath
        dnsConfigManager :=
          [([], [{ DnsServerIps := r.Value NameserverProperty,
                   SearchDomains := r.Value AnyDomain }])]
        monitorCancelled := chainCancelled } ∧
      (∃ r1 : ResolveConfig,
        (NewClient AnyDomain NameserverProperty chainCancelled coreFilePath
            ⟨some r, true⟩).file = ⟨some r1, true⟩ ∧
        r1.Value NameserverProperty = ["127.0.0.1".toList] ∧
        (∀ key, key ≠ NameserverProperty → r1.Value key = r.Value key)) ∧
      (NewClient AnyDomain NameserverProperty chainCancelled coreFilePath
          ⟨some r, false⟩).file = ⟨some r, false⟩ ∧
      (NewClient AnyDomain NameserverProperty chainCancelled coreFilePath
          ⟨none, saveSucceeds⟩ =
        { client := { coreFilePath := coreFilePath, dnsConfigManager := NewManager,
                      monitorCancelled := chainCancelled }
          file := ⟨none, saveSucceeds⟩ }) := by
  refine ⟨?_, ⟨r.SetValue NameserverProperty ["127.0.0.1".toList], rfl,
    value_setValue_self r _ _, fun key hkey => value_setValue_ne r key _ _ hkey⟩, rfl, rfl⟩
  simp [NewClient, OpenResolveConfig, Manager.Store, Manager.Remove, NewManager]

/-- Claim C9, on the code: after a successful `Close` the monitor context is cancelled, and an
execution of `monitorConfigs` whose `MonitorConnections` call returns an error still
schedules `monitorConfigs` once more; only when a stream is returned does the execution
return without reading, writing the core file or scheduling. -/
theorem C9_monitorConfigs_after_close (c : dnsContextClient) (render : Manager → Str)
    (cancelledLater : Nat → Bool) :
    (c.Close false).2 = true ∧
      (c.Close false).1.monitorCancelled = true ∧
      ((c.Close false).1.monitorConfigs render cancelledLater (.error ())).returned = true ∧
      ((c.Close false).1.monitorConfigs render cancelledLater (.error ())).scheduledAgain = 1 ∧
      (∀ stream : List (Except Unit ConnectionEvent),
        (c.Close false).1.monitorConfigs render cancelledLater (.ok stream) =
          { returned := true, scheduledAgain := 0, coreFileWrites := [],
            manager := c.dnsConfigManager }) := by
  refine ⟨rfl, rfl, rfl, rfl, ?_⟩
  intro stream
  rcases stream with _ | ⟨_ | _, _⟩ <;>
    simp [dnsContextClient.monitorConfigs, dnsContextClient.Close, monitorLoop]

end Dnscontext
